import Mathlib

/-!
Shallow embedding of the platformer simulation core from src/main.rs.
Machine floats (f32) are modelled as exact rationals; the decimal
constants of the source are taken at their written value.  Bevy helper
types (Aabb2d and its methods) are embedded following their definitions
in the engine: an Aabb2d stores min and max corners, Aabb2d::new builds
them from a center and half-size, closest_point clamps the query point
into the box, and intersects uses inclusive bounds on both axes.
-/

structure Vec2 where
  x : ℚ
  y : ℚ
deriving DecidableEq

def Vec2.add (a b : Vec2) : Vec2 := ⟨a.x + b.x, a.y + b.y⟩

def Vec2.sub (a b : Vec2) : Vec2 := ⟨a.x - b.x, a.y - b.y⟩

instance : Add Vec2 := ⟨Vec2.add⟩

instance : Sub Vec2 := ⟨Vec2.sub⟩

def Vec2.scale (a : Vec2) (s : ℚ) : Vec2 := ⟨a.x * s, a.y * s⟩

/-- Rust f32::clamp: if self < min return min, else if self > max return max,
else self (the caller must supply min ≤ max or Rust panics). -/
def clampQ (x lo hi : ℚ) : ℚ := if x < lo then lo else if hi < x then hi else x

/-- Componentwise clamp, as bevy Vec2::clamp. -/
def Vec2.clamp (p lo hi : Vec2) : Vec2 := ⟨clampQ p.x lo.x hi.x, clampQ p.y lo.y hi.y⟩

/-- Squared length of a vector; used to express the length comparison in
camera_follow exactly (length > c is equivalent to lengthSq > c^2 for c ≥ 0). -/
def Vec2.lengthSq (a : Vec2) : ℚ := a.x * a.x + a.y * a.y

structure Aabb2d where
  min : Vec2
  max : Vec2
deriving DecidableEq

/-- bevy Aabb2d::new(center, half_size). -/
def Aabb2d.new (center halfSize : Vec2) : Aabb2d :=
  ⟨center - halfSize, center + halfSize⟩

/-- bevy Aabb2d::center = (min + max) / 2. -/
def Aabb2d.center (b : Aabb2d) : Vec2 := (b.min + b.max).scale (1/2)

/-- bevy Aabb2d::half_size = (max - min) / 2. -/
def Aabb2d.halfSize (b : Aabb2d) : Vec2 := (b.max - b.min).scale (1/2)

/-- bevy IntersectsVolume for Aabb2d: inclusive overlap test on both axes. -/
def intersects (a b : Aabb2d) : Prop :=
  a.min.x ≤ b.max.x ∧ b.min.x ≤ a.max.x ∧ a.min.y ≤ b.max.y ∧ b.min.y ≤ a.max.y

instance instDecidableIntersects (a b : Aabb2d) : Decidable (intersects a b) := by
  unfold intersects
  infer_instance

/-- bevy Aabb2d::closest_point: clamp the point into the box. -/
def Aabb2d.closestPoint (b : Aabb2d) (p : Vec2) : Vec2 := Vec2.clamp p b.min b.max

/-- The side of the static box the mover is pushed out through,
src/main.rs enum Collision. -/
inductive Collision where
  | Top
  | Bottom
  | Left
  | Right
deriving DecidableEq

/-- offset = body1.center() - body2.closest_point(body1.center()), the vector
from the clamped contact point back to the mover's center (src/main.rs collide). -/
def collideOffset (body1 body2 : Aabb2d) : Vec2 :=
  body1.center - body2.closestPoint body1.center

/-- src/main.rs fn collide(body1, body2): side classification and clip amount. -/
def collide (body1 body2 : Aabb2d) : Option (Collision × Vec2) :=
  if ¬ intersects body1 body2 then none
  else if |(collideOffset body1 body2).x| + body1.halfSize.y >
          |(collideOffset body1 body2).y| + body1.halfSize.x then
    if (collideOffset body1 body2).x > 0 then
      some (Collision.Left, body1.halfSize - collideOffset body1 body2)
    else
      some (Collision.Right, body1.halfSize + collideOffset body1 body2)
  else if (collideOffset body1 body2).y < 0 then
    some (Collision.Top, body1.halfSize + collideOffset body1 body2)
  else
    some (Collision.Bottom, body1.halfSize - collideOffset body1 body2)

/-- The positional correction applied by handle_collisions for each side:
Top: y -= off.y, Bottom: y += off.y, Left: x += off.x, Right: x -= off.x. -/
def applyPushout (c : Vec2) (r : Collision × Vec2) : Vec2 :=
  match r with
  | (Collision.Top, off) => ⟨c.x, c.y - off.y⟩
  | (Collision.Bottom, off) => ⟨c.x, c.y + off.y⟩
  | (Collision.Left, off) => ⟨c.x + off.x, c.y⟩
  | (Collision.Right, off) => ⟨c.x - off.x, c.y⟩

/-- Signed gap, along the resolved axis, between the corrected moving box and
the facing edge of the static box: 0 means the boxes are exactly tangent on
that axis after the correction. -/
def resolvedGap (b1 b2 : Aabb2d) (r : Collision × Vec2) : ℚ :=
  match r.1 with
  | Collision.Top => (Aabb2d.new (applyPushout b1.center r) b1.halfSize).max.y - b2.min.y
  | Collision.Bottom => (Aabb2d.new (applyPushout b1.center r) b1.halfSize).min.y - b2.max.y
  | Collision.Left => (Aabb2d.new (applyPushout b1.center r) b1.halfSize).min.x - b2.max.x
  | Collision.Right => (Aabb2d.new (applyPushout b1.center r) b1.halfSize).max.x - b2.min.x

/-- Exact tangency on the resolved axis after applying the pushout. -/
def tangentAfter (b1 b2 : Aabb2d) (r : Collision × Vec2) : Prop :=
  resolvedGap b1 b2 r = 0

/-- The moving center sits at or beyond the static box's facing edge along the
resolved axis.  For Top and Left contacts the branch condition of collide
already forces this, so those cases carry no extra requirement. -/
def centerBeyondFace (b1 b2 : Aabb2d) : Collision → Prop
  | Collision.Bottom => b2.max.y ≤ b1.center.y
  | Collision.Right => b1.center.x ≤ b2.min.x
  | _ => True

/-- Both corners of an Aabb2d are ordered; Aabb2d::new with a nonnegative
half-size always produces such a box, and Rust's clamp asserts it. -/
def validBox (b : Aabb2d) : Prop := b.min.x ≤ b.max.x ∧ b.min.y ≤ b.max.y

def PLAYER_SPEED : ℚ := 5

def PLAYER_ACCEL : ℚ := 1/20

def PLAYER_DECEL : ℚ := 2/25

def PLAYER_JUMP_STRENGTH : ℚ := 8

def GRAVITY : ℚ := -1/5

def SQUASH_SNAPPINESS : ℚ := 1/20

/-- src/main.rs fn flerp. -/
def flerp (a b t : ℚ) : ℚ := a + t * (b - a)

/-- src/main.rs fn vlerp (componentwise flerp; also bevy Vec2::lerp). -/
def vlerp (a b : Vec2) (t : ℚ) : Vec2 := ⟨flerp a.x b.x t, flerp a.y b.y t⟩

/-- The player entity's simulation components (PlayerBundle minus markers). -/
structure PlayerState where
  position : Vec2
  velocity : Vec2
  shape : Vec2
  visShape : Vec2
  gravity : Vec2
  grounded : Bool
  rotation : ℚ
deriving DecidableEq

/-- A static Collider entity: Position and Shape, no Velocity (BlockBundle). -/
structure ColliderRec where
  position : Vec2
  shape : Vec2
deriving DecidableEq

/-- The input signals read by control_player: KeyD held, KeyA held, and the
just_pressed edge of KeyW or Space. -/
structure Input where
  rightHeld : Bool
  leftHeld : Bool
  jumpPressed : Bool
deriving DecidableEq

/-- target_x_speed accumulation in control_player: +PLAYER_SPEED for D held,
-PLAYER_SPEED for A held, contributions added. -/
def target_x_speed (inp : Input) : ℚ :=
  (if inp.rightHeld then PLAYER_SPEED else 0) +
    (if inp.leftHeld then -PLAYER_SPEED else 0)

/-- src/main.rs fn control_player: jump edge sets velocity.y and the visual
shape, then velocity.x is blended toward the target with PLAYER_DECEL when
|target| < |velocity.x| and PLAYER_ACCEL otherwise. -/
def control_player (inp : Input) (p : PlayerState) : PlayerState :=
  let p1 :=
    if inp.jumpPressed then
      { p with velocity := ⟨p.velocity.x, PLAYER_JUMP_STRENGTH⟩, visShape := ⟨80, 70⟩ }
    else p
  if |target_x_speed inp| < |p1.velocity.x| then
    { p1 with velocity := ⟨flerp p1.velocity.x (target_x_speed inp) PLAYER_DECEL, p1.velocity.y⟩ }
  else
    { p1 with velocity := ⟨flerp p1.velocity.x (target_x_speed inp) PLAYER_ACCEL, p1.velocity.y⟩ }

/-- src/main.rs fn gravitate restricted to the player (the only Gravitated
entity): velocity += gravity. -/
def gravitate (p : PlayerState) : PlayerState :=
  { p with velocity := p.velocity + p.gravity }

/-- src/main.rs fn move_bodies restricted to the player: position += velocity. -/
def move_player (p : PlayerState) : PlayerState :=
  { p with position := p.position + p.velocity }

/-- The Aabb handle_collisions builds for each collider:
Aabb2d::new(position, shape / 2). -/
def colliderAabb (c : ColliderRec) : Aabb2d :=
  Aabb2d.new c.position (c.shape.scale (1/2))

/-- Per-collider resolution step of handle_collisions.  The player Aabb is the
one computed before the loop (the source builds p_aabb once and keeps using it
while position mutates).  The accumulator carries the player state, the list of
recorded collision sides, and a count of landing-transition firings (the
vis_shape := (80,80), position.y -= 10 block guarded by !grounded). -/
def resolve_step (pAabb : Aabb2d) (acc : PlayerState × List Collision × Nat)
    (c : ColliderRec) : PlayerState × List Collision × Nat :=
  match collide pAabb (colliderAabb c) with
  | none => acc
  | some (Collision.Top, off) =>
      ({ acc.1 with
          velocity := ⟨acc.1.velocity.x, 0⟩
          position := ⟨acc.1.position.x, acc.1.position.y - off.y⟩ },
       acc.2.1 ++ [Collision.Top], acc.2.2)
  | some (Collision.Bottom, off) =>
      let moved := { acc.1 with
        velocity := ⟨acc.1.velocity.x, 0⟩
        position := ⟨acc.1.position.x, acc.1.position.y + off.y⟩ }
      let landed :=
        if moved.grounded = false then
          { moved with
            visShape := ⟨80, 80⟩
            position := ⟨moved.position.x, moved.position.y - 10⟩ }
        else moved
      ({ landed with grounded := true }, acc.2.1 ++ [Collision.Bottom],
       acc.2.2 + (if acc.1.grounded = false then 1 else 0))
  | some (Collision.Left, off) =>
      ({ acc.1 with
          velocity := ⟨0, acc.1.velocity.y⟩
          position := ⟨acc.1.position.x + off.x, acc.1.position.y⟩ },
       acc.2.1 ++ [Collision.Left], acc.2.2)
  | some (Collision.Right, off) =>
      ({ acc.1 with
          velocity := ⟨0, acc.1.velocity.y⟩
          position := ⟨acc.1.position.x - off.x, acc.1.position.y⟩ },
       acc.2.1 ++ [Collision.Right], acc.2.2)

/-- The Aabb handle_collisions builds for the player before the collider loop:
Aabb2d::new(p_position, vis_shape / 2). -/
def playerAabb (p : PlayerState) : Aabb2d :=
  Aabb2d.new p.position (p.visShape.scale (1/2))

/-- src/main.rs fn handle_collisions: fold the resolution step over the
colliders in creation order, then clear grounded when no Bottom contact was
recorded this pass. -/
def handle_collisions (p : PlayerState) (cols : List ColliderRec) : PlayerState :=
  if Collision.Bottom ∈ (cols.foldl (resolve_step (playerAabb p)) (p, [], 0)).2.1 then
    (cols.foldl (resolve_step (playerAabb p)) (p, [], 0)).1
  else
    { (cols.foldl (resolve_step (playerAabb p)) (p, [], 0)).1 with grounded := false }

/-- The collision sides recorded during a handle_collisions pass.  They depend
only on the initial player Aabb, because the source computes p_aabb once. -/
def collision_sides (p : PlayerState) (cols : List ColliderRec) : List Collision :=
  cols.filterMap (fun c => (collide (playerAabb p) (colliderAabb c)).map Prod.fst)

/-- How many times the landing-transition block (vis_shape := (80,80),
position.y -= 10) fires during one handle_collisions pass. -/
def landing_count (p : PlayerState) (cols : List ColliderRec) : Nat :=
  (cols.foldl (resolve_step (playerAabb p)) (p, [], 0)).2.2

/-- The integrator portion of one fixed tick as scheduled by
UpdatePlugin::build: control_player runs first, then gravitate and move_bodies
chained after it. -/
def integrator_tick (inp : Input) (p : PlayerState) : PlayerState :=
  let p1 := control_player inp p
  let p2 := { p1 with velocity := p1.velocity + p1.gravity }
  { p2 with position := p2.position + p2.velocity }

/-- Modelled from the spec: the stage order the specification prescribes,
gravity first, then player input, then position integration. -/
def spec_integrator_tick (inp : Input) (p : PlayerState) : PlayerState :=
  move_player (control_player inp (gravitate p))

/-- The camera entity's simulation components. -/
structure CameraState where
  position : Vec2
  velocity : Vec2
deriving DecidableEq

/-- src/main.rs fn camera_follow.  The source compares direction.length() with
0.1; both sides are nonnegative, so the test is embedded exactly as the
equivalent comparison of squared length with 0.1 * 0.1. -/
def camera_follow (cam : CameraState) (player_pos : Vec2) : CameraState :=
  if (player_pos - cam.position).lengthSq > (1/10) * (1/10) then
    { cam with velocity := vlerp cam.velocity ((player_pos - cam.position).scale (1/25)) (1/10) }
  else
    { cam with velocity := ⟨0, 0⟩ }

/-- src/main.rs fn player_effects (simulation-state part): the visual shape
relaxes toward the logical shape and the lean rotation is derived from
velocity.x / PLAYER_SPEED. -/
def player_effects (p : PlayerState) : PlayerState :=
  { p with
    visShape := vlerp p.visShape p.shape SQUASH_SNAPPINESS
    rotation := flerp 0 (-3/10) (p.velocity.x / PLAYER_SPEED) }

/-- The whole simulated world: the player, the camera, and the static
colliders spawned from WorldData. -/
structure World where
  player : PlayerState
  camera : CameraState
  colliders : List ColliderRec
deriving DecidableEq

/-- src/main.rs fn move_bodies over the whole world: every entity that has
both a Position and a Velocity (the player and the camera) advances by its
velocity; colliders have no Velocity component and are not in the query. -/
def move_bodies (w : World) : World :=
  { w with
    player := move_player w.player
    camera := { w.camera with position := w.camera.position + w.camera.velocity } }

/-- One fixed tick of the UpdatePlugin schedule: control_player, then the
gravitate/move_bodies/handle_collisions chain, then camera_follow and
player_effects. -/
def world_tick (inp : Input) (w : World) : World :=
  let w1 := { w with player := control_player inp w.player }
  let w2 := { w1 with player := gravitate w1.player }
  let w3 := move_bodies w2
  let w4 := { w3 with player := handle_collisions w3.player w3.colliders }
  let w5 := { w4 with camera := camera_follow w4.camera w4.player.position }
  { w5 with player := player_effects w5.player }

/-! ## General lemmas about the embedded operations -/

theorem Vec2.add_def (a b : Vec2) : a + b = ⟨a.x + b.x, a.y + b.y⟩ := rfl

theorem Vec2.sub_def (a b : Vec2) : a - b = ⟨a.x - b.x, a.y - b.y⟩ := rfl

theorem clampQ_eq_self (x lo hi : ℚ) (h1 : lo ≤ x) (h2 : x ≤ hi) : clampQ x lo hi = x := by
  unfold clampQ
  split_ifs with ha hb
  · linarith
  · linarith
  · rfl

theorem clampQ_eq_hi (x lo hi : ℚ) (hv : lo ≤ hi) (h : hi ≤ x) : clampQ x lo hi = hi := by
  unfold clampQ
  split_ifs with ha hb
  · linarith
  · rfl
  · linarith

theorem clampQ_eq_lo (x lo hi : ℚ) (hv : lo ≤ hi) (h : x ≤ lo) : clampQ x lo hi = lo := by
  unfold clampQ
  split_ifs with ha hb
  · rfl
  · linarith
  · linarith

theorem clampQ_eq_hi_of_lt (x lo hi : ℚ) (h : clampQ x lo hi < x) : clampQ x lo hi = hi := by
  unfold clampQ at h ⊢
  split_ifs at h ⊢ with ha hb
  · linarith
  · rfl
  · linarith

theorem clampQ_eq_lo_of_gt (x lo hi : ℚ) (h : x < clampQ x lo hi) : clampQ x lo hi = lo := by
  unfold clampQ at h ⊢
  split_ifs at h ⊢ with ha hb
  · rfl
  · linarith
  · linarith

theorem abs_sub_clampQ_le (x lo hi h : ℚ) (_hv : lo ≤ hi) (hh : 0 ≤ h)
    (h1 : x - h ≤ hi) (h2 : lo ≤ x + h) : |x - clampQ x lo hi| ≤ h := by
  unfold clampQ
  split_ifs with ha hb
  · rw [abs_of_nonpos (by linarith)]
    linarith
  · rw [abs_of_nonneg (by linarith)]
    linarith
  · rw [sub_self, abs_zero]
    exact hh


/-- The side recorded by one resolution step: the collision list grows by the
side collide returned, if any. -/
theorem resolve_step_sides (A : Aabb2d) (acc : PlayerState × List Collision × Nat)
    (c : ColliderRec) :
    (resolve_step A acc c).2.1 =
      acc.2.1 ++ ((collide A (colliderAabb c)).map Prod.fst).toList := by
  cases h : collide A (colliderAabb c) with
  | none => simp [resolve_step, h]
  | some r =>
    obtain ⟨s, off⟩ := r
    cases s <;> simp [resolve_step, h]

/-- One resolution step leaves the grounded flag true exactly when it was
already true or the step resolved a Bottom contact. -/
theorem resolve_step_grounded (A : Aabb2d) (acc : PlayerState × List Collision × Nat)
    (c : ColliderRec) :
    ((resolve_step A acc c).1.grounded = true) ↔
      (acc.1.grounded = true ∨
        (collide A (colliderAabb c)).map Prod.fst = some Collision.Bottom) := by
  cases h : collide A (colliderAabb c) with
  | none => simp [resolve_step, h]
  | some r =>
    obtain ⟨s, off⟩ := r
    cases s <;> simp [resolve_step, h]

/-- Contrapositive form of resolve_step_grounded for the Bool field. -/
theorem resolve_step_grounded_false (A : Aabb2d) (acc : PlayerState × List Collision × Nat)
    (c : ColliderRec) :
    ((resolve_step A acc c).1.grounded = false) ↔
      (acc.1.grounded = false ∧
        ¬ (collide A (colliderAabb c)).map Prod.fst = some Collision.Bottom) := by
  cases h : collide A (colliderAabb c) with
  | none => simp [resolve_step, h]
  | some r =>
    obtain ⟨s, off⟩ := r
    cases s <;> simp [resolve_step, h]

/-- One resolution step increments the landing counter exactly when it
resolves a Bottom contact while the flag is still down. -/
theorem resolve_step_count (A : Aabb2d) (acc : PlayerState × List Collision × Nat)
    (c : ColliderRec) :
    (resolve_step A acc c).2.2 =
      acc.2.2 +
        (if acc.1.grounded = false ∧
            (collide A (colliderAabb c)).map Prod.fst = some Collision.Bottom
         then 1 else 0) := by
  cases h : collide A (colliderAabb c) with
  | none => simp [resolve_step, h]
  | some r =>
    obtain ⟨s, off⟩ := r
    cases s <;> simp [resolve_step, h]

/-- The collision sides collected by the collider loop, relative to the fixed
player Aabb computed before the loop. -/
theorem foldl_resolve_sides (A : Aabb2d) (cols : List ColliderRec)
    (acc : PlayerState × List Collision × Nat) :
    (cols.foldl (resolve_step A) acc).2.1 =
      acc.2.1 ++ cols.filterMap (fun c => (collide A (colliderAabb c)).map Prod.fst) := by
  induction cols generalizing acc with
  | nil => simp
  | cons c cs ih =>
    rw [List.foldl_cons, List.filterMap_cons, ih, resolve_step_sides]
    cases h : collide A (colliderAabb c) with
    | none => simp [h]
    | some r => simp [h]

/-- After the collider loop the grounded flag is true exactly when it started
true or some collider produced a Bottom contact. -/
theorem foldl_resolve_grounded (A : Aabb2d) (cols : List ColliderRec)
    (acc : PlayerState × List Collision × Nat) :
    ((cols.foldl (resolve_step A) acc).1.grounded = true) ↔
      (acc.1.grounded = true ∨ Collision.Bottom ∈
        cols.filterMap (fun c => (collide A (colliderAabb c)).map Prod.fst)) := by
  induction cols generalizing acc with
  | nil => simp
  | cons c cs ih =>
    rw [List.foldl_cons, List.filterMap_cons, ih, resolve_step_grounded]
    cases h : collide A (colliderAabb c) with
    | none => simp [h]
    | some r =>
      obtain ⟨s, off⟩ := r
      cases s <;> simp [h, or_assoc]

/-- The landing counter never moves once the grounded flag is up. -/
theorem foldl_count_of_grounded (A : Aabb2d) (cols : List ColliderRec)
    (acc : PlayerState × List Collision × Nat) (hg : acc.1.grounded = true) :
    (cols.foldl (resolve_step A) acc).2.2 = acc.2.2 := by
  induction cols generalizing acc with
  | nil => rfl
  | cons c cs ih =>
    rw [List.foldl_cons]
    rw [ih _ ((resolve_step_grounded A acc c).mpr (Or.inl hg))]
    rw [resolve_step_count, if_neg (by simp [hg]), Nat.add_zero]

/-- The landing counter never moves during a pass that records no Bottom
contact. -/
theorem foldl_count_of_no_bottom (A : Aabb2d) (cols : List ColliderRec)
    (acc : PlayerState × List Collision × Nat)
    (hb : Collision.Bottom ∉
      cols.filterMap (fun c => (collide A (colliderAabb c)).map Prod.fst)) :
    (cols.foldl (resolve_step A) acc).2.2 = acc.2.2 := by
  induction cols generalizing acc with
  | nil => rfl
  | cons c cs ih =>
    rw [List.filterMap_cons] at hb
    rw [List.foldl_cons]
    cases h : collide A (colliderAabb c) with
    | none =>
      rw [h] at hb
      rw [ih _ hb, resolve_step_count, h]
      simp
    | some r =>
      obtain ⟨s, off⟩ := r
      rw [h] at hb
      simp only [Option.map_some', List.mem_cons, not_or] at hb
      rw [ih _ hb.2, resolve_step_count, h,
        if_neg (by simp [Ne.symm hb.1]), Nat.add_zero]

/-- A pass that starts with the flag down and records a Bottom contact fires
the landing transition exactly once. -/
theorem foldl_count_of_bottom (A : Aabb2d) (cols : List ColliderRec)
    (acc : PlayerState × List Collision × Nat) (hg : acc.1.grounded = false)
    (hb : Collision.Bottom ∈
      cols.filterMap (fun c => (collide A (colliderAabb c)).map Prod.fst)) :
    (cols.foldl (resolve_step A) acc).2.2 = acc.2.2 + 1 := by
  induction cols generalizing acc with
  | nil => simp at hb
  | cons c cs ih =>
    rw [List.filterMap_cons] at hb
    rw [List.foldl_cons]
    cases h : collide A (colliderAabb c) with
    | none =>
      rw [h] at hb
      have hg' : (resolve_step A acc c).1.grounded = false :=
        (resolve_step_grounded_false A acc c).mpr ⟨hg, by rw [h]; simp⟩
      rw [ih _ hg' hb, resolve_step_count, h]
      simp
    | some r =>
      obtain ⟨s, off⟩ := r
      rw [h] at hb
      by_cases hs : s = Collision.Bottom
      · subst hs
        have hgt : (resolve_step A acc c).1.grounded = true :=
          (resolve_step_grounded A acc c).mpr (Or.inr (by rw [h]; rfl))
        rw [foldl_count_of_grounded A cs _ hgt, resolve_step_count, h,
          if_pos ⟨hg, rfl⟩]
      · simp only [Option.map_some', List.mem_cons, not_or] at hb
        rcases hb with hb | hb
        · exact absurd hb.symm hs
        · have hg' : (resolve_step A acc c).1.grounded = false :=
            (resolve_step_grounded_false A acc c).mpr
              ⟨hg, by rw [h]; simp [hs]⟩
          rw [ih _ hg' hb, resolve_step_count, h,
            if_neg (by simp [hs]), Nat.add_zero]

/-- The grounded flag handle_collisions leaves behind, characterised by the
recorded collision sides. -/
theorem handle_grounded_iff (p : PlayerState) (cols : List ColliderRec) :
    ((handle_collisions p cols).grounded = true) ↔
      Collision.Bottom ∈ collision_sides p cols := by
  unfold handle_collisions
  by_cases hm : Collision.Bottom ∈
      (cols.foldl (resolve_step (playerAabb p)) (p, [], 0)).2.1
  · rw [if_pos hm]
    have hm' : Collision.Bottom ∈ collision_sides p cols := by
      rw [foldl_resolve_sides] at hm
      simpa [collision_sides] using hm
    rw [foldl_resolve_grounded]
    exact ⟨fun _ => hm', fun _ => Or.inr (by simpa [collision_sides] using hm')⟩
  · rw [if_neg hm]
    have hm' : Collision.Bottom ∉ collision_sides p cols := by
      rw [foldl_resolve_sides] at hm
      simpa [collision_sides] using hm
    simp [hm']

/-- Claim C2: after every collision-resolution pass the player's Grounded flag
is true if and only if at least one Bottom-side contact was resolved during
that pass; in particular it is false on any pass in which no Bottom contact
occurs, whatever its previous value was. -/
theorem grounded_iff_bottom_contact (p : PlayerState) (cols : List ColliderRec) :
    ((handle_collisions p cols).grounded = true) ↔
      Collision.Bottom ∈ collision_sides p cols :=
  handle_grounded_iff p cols

/-- Claim C7: the landing-transition effect (visual footprint snapped to the
landing size and position nudged down) fires exactly once during the pass in
which Grounded flips from false to true, and fires zero times in every other
pass, in particular while Grounded stays true even though Bottom contacts keep
being resolved. -/
theorem landing_fires_once_per_landing (p : PlayerState) (cols : List ColliderRec) :
    landing_count p cols =
      if p.grounded = false ∧ (handle_collisions p cols).grounded = true
      then 1 else 0 := by
  by_cases h1 : p.grounded = false
  · by_cases h2 : Collision.Bottom ∈ collision_sides p cols
    · rw [if_pos ⟨h1, (handle_grounded_iff p cols).mpr h2⟩]
      unfold landing_count
      rw [foldl_count_of_bottom _ _ _ h1 (by simpa [collision_sides] using h2)]
    · rw [if_neg (fun hc => h2 ((handle_grounded_iff p cols).mp hc.2))]
      unfold landing_count
      rw [foldl_count_of_no_bottom _ _ _ (by simpa [collision_sides] using h2)]
  · rw [if_neg (fun hc => h1 hc.1)]
    unfold landing_count
    rw [foldl_count_of_grounded _ _ _ (by revert h1; cases p.grounded <;> simp)]

/-- Claim C3 counterexample: with a jump pressed, running the stages in the
order the schedule actually declares (control_player, then gravitate, then
move_bodies) does not give the same tick as the spec's order (gravity, then
input, then move): the spec order leaves vertical velocity at the full jump
strength 8, the scheduled order at 8 + GRAVITY = 39/5. -/
theorem integrator_order_counterexample :
    integrator_tick ⟨false, false, true⟩
        ⟨⟨0, 0⟩, ⟨0, 2⟩, ⟨60, 100⟩, ⟨60, 100⟩, ⟨0, -1/5⟩, false, 0⟩ ≠
      spec_integrator_tick ⟨false, false, true⟩
        ⟨⟨0, 0⟩, ⟨0, 2⟩, ⟨60, 100⟩, ⟨60, 100⟩, ⟨0, -1/5⟩, false, 0⟩ := by
  norm_num [integrator_tick, spec_integrator_tick, control_player, gravitate, move_player,
    target_x_speed, flerp, PLAYER_SPEED, PLAYER_ACCEL, PLAYER_DECEL, PLAYER_JUMP_STRENGTH,
    Vec2.add_def]

/-- Claim C3 (amended): within every fixed tick the integrator stages execute
in the order player input, then gravity, then position integration: the
per-tick transition of the scheduled chain equals the composition
(control_player; gravitate; move_player) in that order, for every input and
every player state. -/
theorem integrator_tick_is_input_gravity_move (inp : Input) (p : PlayerState) :
    integrator_tick inp p = move_player (gravitate (control_player inp p)) := rfl

/-- Claim C4 counterexample: the blend factor used when decelerating
(PLAYER_DECEL = 0.08) is not strictly smaller than the one used when
accelerating (PLAYER_ACCEL = 0.05). -/
theorem blend_factor_counterexample : ¬ PLAYER_DECEL < PLAYER_ACCEL := by
  norm_num [PLAYER_DECEL, PLAYER_ACCEL]

/-- Claim C4 (amended): horizontal velocity is updated each tick as
v + t * (target - v), where the blend factor t used when decelerating
(PLAYER_DECEL) is strictly larger than the one used when accelerating
(PLAYER_ACCEL), and both factors lie in the open interval (0,1). -/
theorem control_player_blend :
    PLAYER_ACCEL < PLAYER_DECEL ∧
      0 < PLAYER_ACCEL ∧ PLAYER_ACCEL < 1 ∧ 0 < PLAYER_DECEL ∧ PLAYER_DECEL < 1 ∧
      (∀ a b t : ℚ, flerp a b t = a + t * (b - a)) ∧
      ∀ inp p, (control_player inp p).velocity.x =
        if |target_x_speed inp| < |p.velocity.x| then
          p.velocity.x + PLAYER_DECEL * (target_x_speed inp - p.velocity.x)
        else
          p.velocity.x + PLAYER_ACCEL * (target_x_speed inp - p.velocity.x) := by
  refine ⟨by norm_num [PLAYER_ACCEL, PLAYER_DECEL], by norm_num [PLAYER_ACCEL],
    by norm_num [PLAYER_ACCEL], by norm_num [PLAYER_DECEL], by norm_num [PLAYER_DECEL],
    fun a b t => rfl, fun inp p => ?_⟩
  unfold control_player
  by_cases hj : inp.jumpPressed <;>
    by_cases hlt : |target_x_speed inp| < |p.velocity.x| <;>
      simp [hj, hlt, flerp]

/-- Claim C6 counterexample: with the moving box at center (0,-190), half-size
(30,50) and the static box at center (0,-300), half-size (200,25), the boxes
do not even overlap (the mover's bottom edge is at -240, the collider's top at
-275), so collide returns none rather than Bottom. -/
theorem scenario2_counterexample :
    collide (Aabb2d.new ⟨0, -190⟩ ⟨30, 50⟩) (Aabb2d.new ⟨0, -300⟩ ⟨200, 25⟩) = none := by
  norm_num [collide, intersects, collideOffset, Aabb2d.new, Aabb2d.center, Aabb2d.halfSize,
    Aabb2d.closestPoint, Vec2.clamp, clampQ, Vec2.add_def, Vec2.sub_def, Vec2.scale]

/-- Claim C6 (amended): for the moving box with center (0,-226) and half-size
(30,50) - the configuration with the 1-unit vertical overlap the scenario
describes - against the static box centered (0,-300) with half-size (200,25),
collide returns Bottom with pushout (30,1), and applying the Bottom rule
(position.y += offset.y) moves the moving center to exactly (0,-225). -/
theorem scenario2_amended :
    collide (Aabb2d.new ⟨0, -226⟩ ⟨30, 50⟩) (Aabb2d.new ⟨0, -300⟩ ⟨200, 25⟩) =
        some (Collision.Bottom, ⟨30, 1⟩) ∧
      applyPushout ⟨0, -226⟩ (Collision.Bottom, ⟨30, 1⟩) = ⟨0, -225⟩ := by
  constructor
  · norm_num [collide, intersects, collideOffset, Aabb2d.new, Aabb2d.center, Aabb2d.halfSize,
      Aabb2d.closestPoint, Vec2.clamp, clampQ, Vec2.add_def, Vec2.sub_def, Vec2.scale]
  · norm_num [applyPushout]

/-- Claim C8: with the camera at (0,0) with zero velocity and the player at
(100,0), one camera-follow tick sets the camera velocity to exactly (2/5, 0)
(the lerp of the current velocity toward (player - camera) * 0.04 with blend
factor 0.1); and whenever the squared camera-to-player distance is below the
rest threshold (0.1 squared), the camera velocity is set to zero instead. -/
theorem camera_follow_spec :
    camera_follow ⟨⟨0, 0⟩, ⟨0, 0⟩⟩ ⟨100, 0⟩ = ⟨⟨0, 0⟩, ⟨2/5, 0⟩⟩ ∧
      ∀ cam p, (p - cam.position).lengthSq < 1/100 →
        (camera_follow cam p).velocity = ⟨0, 0⟩ := by
  constructor
  · norm_num [camera_follow, Vec2.lengthSq, Vec2.sub_def, Vec2.scale, vlerp, flerp]
  · intro cam p h
    unfold camera_follow
    rw [if_neg (by rw [show ((1:ℚ)/10) * (1/10) = 1/100 by norm_num]; exact not_lt.mpr h.le)]

/-- Witness for camera_follow_spec: at camera position (0,0) with the player
on top of it, the squared distance 0 is below the threshold and one tick
zeroes the camera velocity. -/
theorem camera_follow_spec_witness :
    ((⟨0, 0⟩ : Vec2) - (⟨0, 0⟩ : Vec2)).lengthSq < 1/100 ∧
      (camera_follow ⟨⟨0, 0⟩, ⟨3, 4⟩⟩ ⟨0, 0⟩).velocity = ⟨0, 0⟩ :=
  ⟨by norm_num [Vec2.lengthSq, Vec2.sub_def],
    camera_follow_spec.2 ⟨⟨0, 0⟩, ⟨3, 4⟩⟩ ⟨0, 0⟩
      (by norm_num [Vec2.lengthSq, Vec2.sub_def])⟩

/-- Claim C10: every simulation tick leaves the list of static colliders -
their Positions and Shapes - unchanged: colliders carry no velocity, only the
player and the camera are moved, and the collision resolver reads the
colliders immutably. -/
theorem colliders_unchanged_by_tick (inp : Input) (w : World) :
    (world_tick inp w).colliders = w.colliders := rfl

/-- Building a Vec2 from the components of another vector gives it back. -/
theorem Vec2.ext_mk (v : Vec2) (a b : ℚ) (ha : a = v.x) (hb : b = v.y) :
    Vec2.mk a b = v := by
  subst ha
  subst hb
  rfl

theorem Aabb2d.center_x (b : Aabb2d) : b.center.x = (b.min.x + b.max.x) * (1/2) := rfl

theorem Aabb2d.center_y (b : Aabb2d) : b.center.y = (b.min.y + b.max.y) * (1/2) := rfl

theorem Aabb2d.halfSize_x (b : Aabb2d) : b.halfSize.x = (b.max.x - b.min.x) * (1/2) := rfl

theorem Aabb2d.halfSize_y (b : Aabb2d) : b.halfSize.y = (b.max.y - b.min.y) * (1/2) := rfl

theorem collideOffset_x (b1 b2 : Aabb2d) :
    (collideOffset b1 b2).x = b1.center.x - clampQ b1.center.x b2.min.x b2.max.x := rfl

theorem collideOffset_y (b1 b2 : Aabb2d) :
    (collideOffset b1 b2).y = b1.center.y - clampQ b1.center.y b2.min.y b2.max.y := rfl

/-- Claim C9: for every pair of boxes where the moving box's center lies
inside the static box (which makes them intersect), the clamped closest point
is the center itself, so the offset is the zero vector and collide returns a
pushout equal to the moving box's full half-size, with side Right when its
half-height exceeds its half-width and side Bottom otherwise; Left and Top are
never returned here, and the result does not depend on the static box's
extents. -/
theorem collide_center_inside (b1 b2 : Aabb2d) (hv1 : validBox b1)
    (h1 : b2.min.x ≤ b1.center.x) (h2 : b1.center.x ≤ b2.max.x)
    (h3 : b2.min.y ≤ b1.center.y) (h4 : b1.center.y ≤ b2.max.y) :
    collideOffset b1 b2 = ⟨0, 0⟩ ∧
      collide b1 b2 =
        some ((if b1.halfSize.x < b1.halfSize.y then Collision.Right else Collision.Bottom),
          b1.halfSize) := by
  obtain ⟨hv1x, hv1y⟩ := hv1
  have e1x : b1.center.x - b1.halfSize.x = b1.min.x := by
    rw [Aabb2d.center_x, Aabb2d.halfSize_x]
    ring
  have e2x : b1.center.x + b1.halfSize.x = b1.max.x := by
    rw [Aabb2d.center_x, Aabb2d.halfSize_x]
    ring
  have e1y : b1.center.y - b1.halfSize.y = b1.min.y := by
    rw [Aabb2d.center_y, Aabb2d.halfSize_y]
    ring
  have e2y : b1.center.y + b1.halfSize.y = b1.max.y := by
    rw [Aabb2d.center_y, Aabb2d.halfSize_y]
    ring
  have h0x : 0 ≤ b1.halfSize.x := by
    rw [Aabb2d.halfSize_x]
    linarith
  have h0y : 0 ≤ b1.halfSize.y := by
    rw [Aabb2d.halfSize_y]
    linarith
  have hI : intersects b1 b2 :=
    ⟨by linarith, by linarith, by linarith, by linarith⟩
  have hoffx : (collideOffset b1 b2).x = 0 := by
    rw [collideOffset_x, clampQ_eq_self _ _ _ h1 h2]
    ring
  have hoffy : (collideOffset b1 b2).y = 0 := by
    rw [collideOffset_y, clampQ_eq_self _ _ _ h3 h4]
    ring
  have hoff : collideOffset b1 b2 = ⟨0, 0⟩ :=
    (Vec2.ext_mk _ _ _ hoffx.symm hoffy.symm).symm
  refine ⟨hoff, ?_⟩
  by_cases hc : b1.halfSize.x < b1.halfSize.y
  · have hC2 : |(collideOffset b1 b2).x| + b1.halfSize.y >
        |(collideOffset b1 b2).y| + b1.halfSize.x := by
      rw [hoffx, hoffy, abs_zero]
      linarith
    have hC3 : ¬ (collideOffset b1 b2).x > 0 := by
      rw [hoffx]
      linarith
    unfold collide
    rw [if_neg (not_not_intro hI), if_pos hC2, if_neg hC3, if_pos hc, hoff]
    simp [Vec2.add_def]
  · have hC2 : ¬ (|(collideOffset b1 b2).x| + b1.halfSize.y >
        |(collideOffset b1 b2).y| + b1.halfSize.x) := by
      rw [hoffx, hoffy, abs_zero]
      linarith
    have hC4 : ¬ (collideOffset b1 b2).y < 0 := by
      rw [hoffy]
      linarith
    unfold collide
    rw [if_neg (not_not_intro hI), if_neg hC2, if_neg hC4, if_neg hc, hoff]
    simp [Vec2.sub_def]

/-- Witness for collide_center_inside: a tall unit box centered at the origin
inside a large box also centered at the origin resolves to Right with the full
half-size (1,2) as pushout. -/
theorem collide_center_inside_witness :
    collideOffset (Aabb2d.new ⟨0, 0⟩ ⟨1, 2⟩) (Aabb2d.new ⟨0, 0⟩ ⟨5, 5⟩) = ⟨0, 0⟩ ∧
      collide (Aabb2d.new ⟨0, 0⟩ ⟨1, 2⟩) (Aabb2d.new ⟨0, 0⟩ ⟨5, 5⟩) =
        some ((if (Aabb2d.new ⟨0, 0⟩ ⟨1, 2⟩).halfSize.x <
            (Aabb2d.new ⟨0, 0⟩ ⟨1, 2⟩).halfSize.y
          then Collision.Right else Collision.Bottom),
          (Aabb2d.new ⟨0, 0⟩ ⟨1, 2⟩).halfSize) :=
  collide_center_inside _ _
    (by norm_num [validBox, Aabb2d.new, Vec2.add_def, Vec2.sub_def])
    (by norm_num [Aabb2d.center_x, Aabb2d.new, Vec2.add_def, Vec2.sub_def])
    (by norm_num [Aabb2d.center_x, Aabb2d.new, Vec2.add_def, Vec2.sub_def])
    (by norm_num [Aabb2d.center_y, Aabb2d.new, Vec2.add_def, Vec2.sub_def])
    (by norm_num [Aabb2d.center_y, Aabb2d.new, Vec2.add_def, Vec2.sub_def])

/-- Claim C1 counterexample: a small box whose center lies inside a large
static box resolves to Bottom with pushout equal to its half-size, but the
corrected boxes are not tangent (the mover is still strictly inside the
static box). -/
theorem collide_tangent_counterexample :
    collide (Aabb2d.new ⟨0, 0⟩ ⟨1, 1⟩) (Aabb2d.new ⟨0, 0⟩ ⟨5, 5⟩) =
        some (Collision.Bottom, ⟨1, 1⟩) ∧
      ¬ tangentAfter (Aabb2d.new ⟨0, 0⟩ ⟨1, 1⟩) (Aabb2d.new ⟨0, 0⟩ ⟨5, 5⟩)
        (Collision.Bottom, ⟨1, 1⟩) := by
  constructor
  · norm_num [collide, intersects, collideOffset, Aabb2d.new, Aabb2d.center, Aabb2d.halfSize,
      Aabb2d.closestPoint, Vec2.clamp, clampQ, Vec2.add_def, Vec2.sub_def, Vec2.scale]
  · norm_num [tangentAfter, resolvedGap, applyPushout, Aabb2d.new, Aabb2d.center,
      Aabb2d.halfSize, Vec2.add_def, Vec2.sub_def, Vec2.scale]

/-- Claim C1 (amended): for every pair of overlapping AABBs, collide returns
some side and pushout; and whenever the moving center lies at or beyond the
static box's facing edge along the resolved axis (always the case for Top and
Left contacts, and an extra hypothesis for Bottom and Right, which fails
exactly when the clamped closest point is interior, e.g. center inside the
static box), translating the moving box along the resolved axis by the
pushout with the sign of the side rule leaves the boxes exactly tangent on
that axis. -/
theorem collide_some_and_tangent :
    (∀ b1 b2 : Aabb2d, intersects b1 b2 → (collide b1 b2).isSome = true) ∧
      ∀ b1 b2 : Aabb2d, ∀ s : Collision, ∀ off : Vec2, validBox b2 →
        collide b1 b2 = some (s, off) → centerBeyondFace b1 b2 s →
        tangentAfter b1 b2 (s, off) := by
  constructor
  · intro b1 b2 hI
    unfold collide
    rw [if_neg (not_not_intro hI)]
    split_ifs <;> rfl
  · intro b1 b2 s off hv2 hc hb
    unfold collide at hc
    by_cases hI : intersects b1 b2
    · rw [if_neg (not_not_intro hI)] at hc
      by_cases h2 : |(collideOffset b1 b2).x| + b1.halfSize.y >
          |(collideOffset b1 b2).y| + b1.halfSize.x
      · rw [if_pos h2] at hc
        by_cases h3 : (collideOffset b1 b2).x > 0
        · rw [if_pos h3] at hc
          rw [Option.some.injEq, Prod.mk.injEq] at hc
          obtain ⟨hs, hoff⟩ := hc
          subst hs
          subst hoff
          have he := collideOffset_x b1 b2
          have hcl : clampQ b1.center.x b2.min.x b2.max.x = b2.max.x := by
            apply clampQ_eq_hi_of_lt
            linarith
          show ((b1.center.x + (b1.halfSize.x - (collideOffset b1 b2).x)) -
              b1.halfSize.x) - b2.max.x = 0
          rw [collideOffset_x, hcl]
          ring
        · rw [if_neg h3] at hc
          rw [Option.some.injEq, Prod.mk.injEq] at hc
          obtain ⟨hs, hoff⟩ := hc
          subst hs
          subst hoff
          have hb' : b1.center.x ≤ b2.min.x := hb
          have hcl : clampQ b1.center.x b2.min.x b2.max.x = b2.min.x :=
            clampQ_eq_lo _ _ _ hv2.1 hb'
          show ((b1.center.x - (b1.halfSize.x + (collideOffset b1 b2).x)) +
              b1.halfSize.x) - b2.min.x = 0
          rw [collideOffset_x, hcl]
          ring
      · rw [if_neg h2] at hc
        by_cases h4 : (collideOffset b1 b2).y < 0
        · rw [if_pos h4] at hc
          rw [Option.some.injEq, Prod.mk.injEq] at hc
          obtain ⟨hs, hoff⟩ := hc
          subst hs
          subst hoff
          have he := collideOffset_y b1 b2
          have hcl : clampQ b1.center.y b2.min.y b2.max.y = b2.min.y := by
            apply clampQ_eq_lo_of_gt
            linarith
          show ((b1.center.y - (b1.halfSize.y + (collideOffset b1 b2).y)) +
              b1.halfSize.y) - b2.min.y = 0
          rw [collideOffset_y, hcl]
          ring
        · rw [if_neg h4] at hc
          rw [Option.some.injEq, Prod.mk.injEq] at hc
          obtain ⟨hs, hoff⟩ := hc
          subst hs
          subst hoff
          have hb' : b2.max.y ≤ b1.center.y := hb
          have hcl : clampQ b1.center.y b2.min.y b2.max.y = b2.max.y :=
            clampQ_eq_hi _ _ _ hv2.2 hb'
          show ((b1.center.y + (b1.halfSize.y - (collideOffset b1 b2).y)) -
              b1.halfSize.y) - b2.max.y = 0
          rw [collideOffset_y, hcl]
          ring
    · rw [if_pos hI] at hc
      exact Option.noConfusion hc

/-- Witness for collide_some_and_tangent: a unit box overlapping the top edge
of a large box from above is resolved to Bottom with pushout (1, 1/2), and the
corrected pair is exactly tangent. -/
theorem collide_some_and_tangent_witness :
    (collide (Aabb2d.new ⟨0, 11/2⟩ ⟨1, 1⟩) (Aabb2d.new ⟨0, 0⟩ ⟨5, 5⟩)).isSome = true ∧
      tangentAfter (Aabb2d.new ⟨0, 11/2⟩ ⟨1, 1⟩) (Aabb2d.new ⟨0, 0⟩ ⟨5, 5⟩)
        (Collision.Bottom, ⟨1, 1/2⟩) :=
  ⟨collide_some_and_tangent.1 _ _
      (by norm_num [intersects, Aabb2d.new, Vec2.add_def, Vec2.sub_def]),
    collide_some_and_tangent.2 _ _ Collision.Bottom ⟨1, 1/2⟩
      (by norm_num [validBox, Aabb2d.new, Vec2.add_def, Vec2.sub_def])
      (by norm_num [collide, intersects, collideOffset, Aabb2d.new, Aabb2d.center,
        Aabb2d.halfSize, Aabb2d.closestPoint, Vec2.clamp, clampQ, Vec2.add_def,
        Vec2.sub_def, Vec2.scale])
      (by norm_num [centerBeyondFace, Aabb2d.center_y, Aabb2d.new, Vec2.add_def,
        Vec2.sub_def])⟩

/-- When the side heuristic picks the vertical axis and the mover is exactly
half-size away from the clamped point on y, resolution does not move it. -/
theorem collide_vertical_noop (b1 b2 : Aabb2d) (hI : intersects b1 b2)
    (hC2 : ¬ (|(collideOffset b1 b2).x| + b1.halfSize.y >
      |(collideOffset b1 b2).y| + b1.halfSize.x))
    (habs : |(collideOffset b1 b2).y| = b1.halfSize.y) :
    ∃ r, collide b1 b2 = some r ∧ applyPushout b1.center r = b1.center := by
  by_cases hC4 : (collideOffset b1 b2).y < 0
  · refine ⟨(Collision.Top, b1.halfSize + collideOffset b1 b2), ?_, ?_⟩
    · unfold collide
      rw [if_neg (not_not_intro hI), if_neg hC2, if_pos hC4]
    · have hy' : (collideOffset b1 b2).y = -b1.halfSize.y := by
        rw [abs_of_neg hC4] at habs
        linarith
      refine Vec2.ext_mk _ _ _ rfl ?_
      show b1.center.y - (b1.halfSize.y + (collideOffset b1 b2).y) = b1.center.y
      rw [hy']
      ring
  · refine ⟨(Collision.Bottom, b1.halfSize - collideOffset b1 b2), ?_, ?_⟩
    · unfold collide
      rw [if_neg (not_not_intro hI), if_neg hC2, if_neg hC4]
    · have hy' : (collideOffset b1 b2).y = b1.halfSize.y := by
        rw [abs_of_nonneg (le_of_not_lt hC4)] at habs
        exact habs
      refine Vec2.ext_mk _ _ _ rfl ?_
      show b1.center.y + (b1.halfSize.y - (collideOffset b1 b2).y) = b1.center.y
      rw [hy']
      ring

/-- Claim C5 counterexample: a pair of boxes that are exactly tangent (the
mover rests on top of the static box with zero overlap) still intersects under
the inclusive bounds, so the second call to collide returns Some - with a zero
pushout along the resolved axis - rather than None. -/
theorem tangent_second_call_counterexample :
    (Aabb2d.new ⟨0, 6⟩ ⟨1, 1⟩).min.y = (Aabb2d.new ⟨0, 0⟩ ⟨5, 5⟩).max.y ∧
      collide (Aabb2d.new ⟨0, 6⟩ ⟨1, 1⟩) (Aabb2d.new ⟨0, 0⟩ ⟨5, 5⟩) =
        some (Collision.Bottom, ⟨1, 0⟩) := by
  constructor
  · norm_num [Aabb2d.new, Vec2.add_def, Vec2.sub_def]
  · norm_num [collide, intersects, collideOffset, Aabb2d.new, Aabb2d.center, Aabb2d.halfSize,
      Aabb2d.closestPoint, Vec2.clamp, clampQ, Vec2.add_def, Vec2.sub_def, Vec2.scale]

/-- Claim C5 (amended): for every pair of valid boxes that are exactly tangent
(touching on an aligned edge while intersecting), running the resolution again
is a positional no-op, but not because collide returns None: the second call
returns Some side and pushout whose component along the resolved axis is zero,
so applying the side's correction leaves the moving center unchanged (the
velocity component along that axis is set to zero again). -/
theorem collide_tangent_pair (b1 b2 : Aabb2d) (hv1 : validBox b1) (hv2 : validBox b2)
    (hI : intersects b1 b2)
    (ht : b1.min.y = b2.max.y ∨ b1.max.y = b2.min.y ∨
      b1.min.x = b2.max.x ∨ b1.max.x = b2.min.x) :
    ∃ r, collide b1 b2 = some r ∧ applyPushout b1.center r = b1.center := by
  obtain ⟨hv1x, hv1y⟩ := hv1
  obtain ⟨hv2x, hv2y⟩ := hv2
  obtain ⟨hi1, hi2, hi3, hi4⟩ := id hI
  have e1x : b1.center.x - b1.halfSize.x = b1.min.x := by
    rw [Aabb2d.center_x, Aabb2d.halfSize_x]
    ring
  have e2x : b1.center.x + b1.halfSize.x = b1.max.x := by
    rw [Aabb2d.center_x, Aabb2d.halfSize_x]
    ring
  have e1y : b1.center.y - b1.halfSize.y = b1.min.y := by
    rw [Aabb2d.center_y, Aabb2d.halfSize_y]
    ring
  have e2y : b1.center.y + b1.halfSize.y = b1.max.y := by
    rw [Aabb2d.center_y, Aabb2d.halfSize_y]
    ring
  have h0x : 0 ≤ b1.halfSize.x := by
    rw [Aabb2d.halfSize_x]
    linarith
  have h0y : 0 ≤ b1.halfSize.y := by
    rw [Aabb2d.halfSize_y]
    linarith
  have hox : |(collideOffset b1 b2).x| ≤ b1.halfSize.x := by
    rw [collideOffset_x]
    exact abs_sub_clampQ_le _ _ _ _ hv2x h0x (by linarith) (by linarith)
  have hoy : |(collideOffset b1 b2).y| ≤ b1.halfSize.y := by
    rw [collideOffset_y]
    exact abs_sub_clampQ_le _ _ _ _ hv2y h0y (by linarith) (by linarith)
  rcases ht with hty | hty | htx | htx
  · have hcy : b2.max.y ≤ b1.center.y := by linarith
    have hcl : clampQ b1.center.y b2.min.y b2.max.y = b2.max.y :=
      clampQ_eq_hi _ _ _ hv2y hcy
    have hyeq : (collideOffset b1 b2).y = b1.halfSize.y := by
      rw [collideOffset_y, hcl]
      linarith
    have habs : |(collideOffset b1 b2).y| = b1.halfSize.y := by
      rw [hyeq]
      exact abs_of_nonneg h0y
    have hC2 : ¬ (|(collideOffset b1 b2).x| + b1.halfSize.y >
        |(collideOffset b1 b2).y| + b1.halfSize.x) := by
      push_neg
      rw [habs]
      linarith
    exact collide_vertical_noop b1 b2 hI hC2 habs
  · have hcy : b1.center.y ≤ b2.min.y := by linarith
    have hcl : clampQ b1.center.y b2.min.y b2.max.y = b2.min.y :=
      clampQ_eq_lo _ _ _ hv2y hcy
    have hyeq : (collideOffset b1 b2).y = -b1.halfSize.y := by
      rw [collideOffset_y, hcl]
      linarith
    have habs : |(collideOffset b1 b2).y| = b1.halfSize.y := by
      rw [hyeq, abs_neg]
      exact abs_of_nonneg h0y
    have hC2 : ¬ (|(collideOffset b1 b2).x| + b1.halfSize.y >
        |(collideOffset b1 b2).y| + b1.halfSize.x) := by
      push_neg
      rw [habs]
      linarith
    exact collide_vertical_noop b1 b2 hI hC2 habs
  · have hcx : b2.max.x ≤ b1.center.x := by linarith
    have hcl : clampQ b1.center.x b2.min.x b2.max.x = b2.max.x :=
      clampQ_eq_hi _ _ _ hv2x hcx
    have hxeq : (collideOffset b1 b2).x = b1.halfSize.x := by
      rw [collideOffset_x, hcl]
      linarith
    have hxabs : |(collideOffset b1 b2).x| = b1.halfSize.x := by
      rw [hxeq]
      exact abs_of_nonneg h0x
    by_cases hC2 : |(collideOffset b1 b2).x| + b1.halfSize.y >
        |(collideOffset b1 b2).y| + b1.halfSize.x
    · by_cases hC3 : (collideOffset b1 b2).x > 0
      · refine ⟨(Collision.Left, b1.halfSize - collideOffset b1 b2), ?_, ?_⟩
        · unfold collide
          rw [if_neg (not_not_intro hI), if_pos hC2, if_pos hC3]
        · refine Vec2.ext_mk _ _ _ ?_ rfl
          show b1.center.x + (b1.halfSize.x - (collideOffset b1 b2).x) = b1.center.x
          rw [hxeq]
          ring
      · refine ⟨(Collision.Right, b1.halfSize + collideOffset b1 b2), ?_, ?_⟩
        · unfold collide
          rw [if_neg (not_not_intro hI), if_pos hC2, if_neg hC3]
        · have h0 : (collideOffset b1 b2).x = -b1.halfSize.x := by
            have hx0 := le_of_not_lt hC3
            linarith
          refine Vec2.ext_mk _ _ _ ?_ rfl
          show b1.center.x - (b1.halfSize.x + (collideOffset b1 b2).x) = b1.center.x
          rw [h0]
          ring
    · have hC2' := hC2
      push_neg at hC2'
      rw [hxabs] at hC2'
      have habs : |(collideOffset b1 b2).y| = b1.halfSize.y :=
        le_antisymm hoy (by linarith)
      exact collide_vertical_noop b1 b2 hI hC2 habs
  · have hcx : b1.center.x ≤ b2.min.x := by linarith
    have hcl : clampQ b1.center.x b2.min.x b2.max.x = b2.min.x :=
      clampQ_eq_lo _ _ _ hv2x hcx
    have hxeq : (collideOffset b1 b2).x = -b1.halfSize.x := by
      rw [collideOffset_x, hcl]
      linarith
    have hxabs : |(collideOffset b1 b2).x| = b1.halfSize.x := by
      rw [hxeq, abs_neg]
      exact abs_of_nonneg h0x
    by_cases hC2 : |(collideOffset b1 b2).x| + b1.halfSize.y >
        |(collideOffset b1 b2).y| + b1.halfSize.x
    · have hC3 : ¬ (collideOffset b1 b2).x > 0 := by
        push_neg
        rw [hxeq]
        linarith
      refine ⟨(Collision.Right, b1.halfSize + collideOffset b1 b2), ?_, ?_⟩
      · unfold collide
        rw [if_neg (not_not_intro hI), if_pos hC2, if_neg hC3]
      · refine Vec2.ext_mk _ _ _ ?_ rfl
        show b1.center.x - (b1.halfSize.x + (collideOffset b1 b2).x) = b1.center.x
        rw [hxeq]
        ring
    · have hC2' := hC2
      push_neg at hC2'
      rw [hxabs] at hC2'
      have habs : |(collideOffset b1 b2).y| = b1.halfSize.y :=
        le_antisymm hoy (by linarith)
      exact collide_vertical_noop b1 b2 hI hC2 habs

/-- Witness for collide_tangent_pair: the unit box resting exactly on top of
the large box is re-resolved to Some with a pushout that does not move it. -/
theorem collide_tangent_pair_witness :
    ∃ r, collide (Aabb2d.new ⟨0, 6⟩ ⟨1, 1⟩) (Aabb2d.new ⟨0, 0⟩ ⟨5, 5⟩) = some r ∧
      applyPushout (Aabb2d.new ⟨0, 6⟩ ⟨1, 1⟩).center r = (Aabb2d.new ⟨0, 6⟩ ⟨1, 1⟩).center :=
  collide_tangent_pair _ _
    (by norm_num [validBox, Aabb2d.new, Vec2.add_def, Vec2.sub_def])
    (by norm_num [validBox, Aabb2d.new, Vec2.add_def, Vec2.sub_def])
    (by norm_num [intersects, Aabb2d.new, Vec2.add_def, Vec2.sub_def])
    (Or.inl (by norm_num [Aabb2d.new, Vec2.add_def, Vec2.sub_def]))
